import Mathlib

/-!
Verification of the idle-detection and metrics-retention engine of the
Runpod-Idle-Pod-Monitor repository, as a shallow embedding in Lean.

Python dicts carrying metric samples are modelled as structures with
`Option` fields (a missing key is `none`; `metric.get(k, d)` becomes
`(field).getD d`).  Python `dict` objects used as keyed stores are
modelled as association lists in insertion order (assignment to an
existing key keeps its position, a new key is appended, `del` removes).
Numeric percentages are modelled as rationals, epochs and durations as
integers; `time.time()` becomes an explicit `now` parameter.  File I/O
(reading JSONL lines, saving counter snapshots) is out of the embedded
state: functions take the parsed record list and return the new state.
-/

/-- One metric sample, mirroring the JSON objects written to the metric
log.  Every field is optional because the Python code accesses them with
`dict.get`. -/
structure Metric where
  pod_id : Option String := none
  name : Option String := none
  status : Option String := none
  epoch : Option Int := none
  timestamp : Option String := none
  cpu_percent : Option ℚ := none
  gpu_percent : Option ℚ := none
  memory_percent : Option ℚ := none
  cost_per_hr : Option ℚ := none
  uptime_seconds : Option Int := none
deriving DecidableEq

/-- Auto-stop thresholds dict (`max_cpu_percent`, `max_gpu_percent`,
`max_memory_percent`, `duration`), all read with `dict.get` and a
default in the source. -/
structure Thresholds where
  max_cpu_percent : Option ℚ := none
  max_gpu_percent : Option ℚ := none
  max_memory_percent : Option ℚ := none
  duration : Option Int := none
deriving DecidableEq

/-- One idle-counter entry of `AutoStopTracker.counters`
(auto_stop_tracker.py, the dict literals at lines 129-140 and
198-209). -/
structure CounterEntry where
  consecutive_below_threshold : Nat
  last_check_epoch : Int
  first_below_epoch : Option Int
  last_cpu : ℚ
  last_gpu : ℚ
  last_memory : ℚ
  pod_name : String
  status : String
deriving DecidableEq

/-! Association-list model of a Python dict keyed by pod id. -/

/-- Lookup in a Python-dict-as-association-list (`d[k]` / `k in d`). -/
def alLookup : List (String × β) → String → Option β
  | [], _ => none
  | p :: t, k => if p.1 = k then some p.2 else alLookup t k

/-- Replacement semantics of `d[k] = v`: an existing key keeps its
position, a new key is appended at the end. -/
def alInsert : List (String × β) → String → β → List (String × β)
  | [], k, v => [(k, v)]
  | p :: t, k, v => if p.1 = k then (k, v) :: t else p :: alInsert t k v

/-- Semantics of `del d[k]` (also a no-op when the key is absent, which
matches the guarded `if k in d: del d[k]` uses in the source). -/
def alErase : List (String × β) → String → List (String × β)
  | [], _ => []
  | p :: t, k => if p.1 = k then alErase t k else p :: alErase t k

theorem alLookup_alErase_self (l : List (String × β)) (k : String) :
    alLookup (alErase l k) k = none := by
  induction l with
  | nil => rfl
  | cons p t ih =>
      by_cases h : p.1 = k
      · simpa [alErase, h] using ih
      · simpa [alErase, alLookup, h] using ih

theorem alLookup_alErase_ne (l : List (String × β)) (k q : String) (h : q ≠ k) :
    alLookup (alErase l k) q = alLookup l q := by
  induction l with
  | nil => rfl
  | cons p t ih =>
      have hkq : ¬ (k = q) := fun hh => h hh.symm
      by_cases hp : p.1 = k
      · simpa [alErase, alLookup, hp, hkq] using ih
      · by_cases hq : p.1 = q
        · simp [alErase, alLookup, hp, hq, h]
        · simpa [alErase, alLookup, hp, hq] using ih

theorem alLookup_alInsert_ne (l : List (String × β)) (k q : String) (v : β)
    (h : q ≠ k) : alLookup (alInsert l k v) q = alLookup l q := by
  induction l with
  | nil =>
      have : ¬ (k = q) := fun hh => h hh.symm
      simp [alInsert, alLookup, this]
  | cons p t ih =>
      by_cases hp : p.1 = k
      · have hkq : ¬ (k = q) := fun hh => h hh.symm
        have hpq : ¬ p.1 = q := by rw [hp]; exact hkq
        simp [alInsert, alLookup, hp, hkq, hpq]
      · by_cases hq : p.1 = q
        · simp [alInsert, alLookup, hp, hq, h]
        · simpa [alInsert, alLookup, hp, hq] using ih

/-- Every entry of `alInsert l k v` is either an old entry of `l` or the
new binding `(k, v)`. -/
theorem mem_alInsert (l : List (String × β)) (k : String) (v : β)
    (p : String × β) (hp : p ∈ alInsert l k v) : p ∈ l ∨ p = (k, v) := by
  induction l with
  | nil => simpa [alInsert] using hp
  | cons q t ih =>
      by_cases hq : q.1 = k
      · simp only [alInsert, hq, if_pos] at hp
        rcases List.mem_cons.mp hp with hh | hh
        · exact Or.inr hh
        · exact Or.inl (List.mem_cons_of_mem _ hh)
      · simp only [alInsert, hq, if_neg, not_false_iff] at hp
        rcases List.mem_cons.mp hp with hh | hh
        · exact Or.inl (hh ▸ List.mem_cons_self _ _)
        · rcases ih hh with hh2 | hh2
          · exact Or.inl (List.mem_cons_of_mem _ hh2)
          · exact Or.inr hh2

/-- Every entry of `alErase l k` is an entry of `l`. -/
theorem mem_alErase (l : List (String × β)) (k : String)
    (p : String × β) (hp : p ∈ alErase l k) : p ∈ l := by
  induction l with
  | nil => simp [alErase] at hp
  | cons q t ih =>
      by_cases hq : q.1 = k
      · simp only [alErase, hq, if_pos] at hp
        exact List.mem_cons_of_mem _ (ih hp)
      · simp only [alErase, hq, if_neg, not_false_iff] at hp
        rcases List.mem_cons.mp hp with hh | hh
        · exact hh ▸ List.mem_cons_self _ _
        · exact List.mem_cons_of_mem _ (ih hh)

/-! ## AutoStopTracker (src/runpod_monitor/auto_stop_tracker.py) -/

namespace AutoStopTracker

/-- In-memory state of an `AutoStopTracker` instance: the counters dict,
the thresholds dict and the excluded-pods list.  The data directory and
counter-file persistence are I/O concerns outside the embedding. -/
structure State where
  counters : List (String × CounterEntry) := []
  thresholds : Thresholds := {}
  excluded_pods : List String := []
deriving DecidableEq

/-- `AutoStopTracker.set_thresholds` (lines 57-66).  `excluded_pods or []`
is modelled by passing the list directly (callers passing `None` pass
`[]`). -/
def set_thresholds (st : State) (thresholds : Thresholds)
    (excluded_pods : List String) : State :=
  { st with thresholds := thresholds, excluded_pods := excluded_pods }

/-- `AutoStopTracker._is_below_threshold` (lines 145-162): every metric
is at or below its threshold, each side read with `dict.get` and the
defaults of the source. -/
def _is_below_threshold (metric : Metric) (thresholds : Thresholds) : Bool :=
  decide (metric.cpu_percent.getD 0 ≤ thresholds.max_cpu_percent.getD 1) &&
  decide (metric.gpu_percent.getD 0 ≤ thresholds.max_gpu_percent.getD 1) &&
  decide (metric.memory_percent.getD 0 ≤ thresholds.max_memory_percent.getD 1)

/-- Python truthiness of the optional `first_below_epoch` value
(`None` and `0` are falsy). -/
def optTruthy : Option Int → Bool
  | none => false
  | some x => decide (x ≠ 0)

/-- `AutoStopTracker.check_auto_stop` (lines 238-263).  `time.time()` is
the explicit `now` argument; `min_data_points` is the literal 3 of the
source. -/
def check_auto_stop (st : State) (now : Int) (pod_id : String) :
    Bool × Option CounterEntry :=
  match alLookup st.counters pod_id with
  | none => (false, none)
  | some counter =>
      if 0 < counter.consecutive_below_threshold ∧
          optTruthy counter.first_below_epoch = true then
        let duration_below := now - counter.first_below_epoch.getD 0
        let required_duration := st.thresholds.duration.getD 3600
        if 3 ≤ counter.consecutive_below_threshold ∧
            required_duration ≤ duration_below then
          (true, some counter)
        else
          (false, some counter)
      else
        (false, some counter)

/-- `AutoStopTracker.update_counter` (lines 164-236).  The periodic
`save_counters` flush is file I/O and does not change the in-memory
state. -/
def update_counter (st : State) (metric : Metric) (now : Int) : State :=
  let pod_id := metric.pod_id.getD ""
  if pod_id = "" then st
  else
    let pod_name := metric.name.getD ""
    if pod_id ∈ st.excluded_pods ∨ pod_name ∈ st.excluded_pods then
      { st with counters := alErase st.counters pod_id }
    else
      let current_epoch := metric.epoch.getD now
      let status := metric.status.getD "UNKNOWN"
      if status ≠ "RUNNING" then
        { st with counters := alErase st.counters pod_id }
      else
        let is_below := _is_below_threshold metric st.thresholds
        match alLookup st.counters pod_id with
        | none =>
            let fresh : CounterEntry :=
              { consecutive_below_threshold := if is_below then 1 else 0
                last_check_epoch := current_epoch
                first_below_epoch := if is_below then some current_epoch else none
                last_cpu := metric.cpu_percent.getD 0
                last_gpu := metric.gpu_percent.getD 0
                last_memory := metric.memory_percent.getD 0
                pod_name := pod_name
                status := status }
            { st with counters := alInsert st.counters pod_id fresh }
        | some counter =>
            let counter1 : CounterEntry :=
              if is_below then
                { counter with
                  first_below_epoch :=
                    if counter.consecutive_below_threshold = 0 then
                      some current_epoch
                    else counter.first_below_epoch
                  consecutive_below_threshold :=
                    counter.consecutive_below_threshold + 1 }
              else
                { counter with
                  consecutive_below_threshold := 0
                  first_below_epoch := none }
            let counter2 : CounterEntry :=
              { counter1 with
                last_check_epoch := current_epoch
                last_cpu := metric.cpu_percent.getD 0
                last_gpu := metric.gpu_percent.getD 0
                last_memory := metric.memory_percent.getD 0
                pod_name := pod_name
                status := status }
            { st with counters := alInsert st.counters pod_id counter2 }

/-- `AutoStopTracker.reset_counter` (lines 279-288). -/
def reset_counter (st : State) (pod_id : String) : State :=
  { st with counters := alErase st.counters pod_id }

/-- `AutoStopTracker.cleanup_stale_counters` (lines 302-322): drop every
entry whose `last_check_epoch` is older than `max_age_seconds`. -/
def cleanup_stale_counters (st : State) (now : Int)
    (max_age_seconds : Int := 7200) : State :=
  let kept := st.counters.filter
    (fun p => ¬ max_age_seconds < now - p.2.last_check_epoch)
  { st with counters := kept }

/-- `metric.get('epoch', 0)`, the epoch key used by the JSONL scan for
both the window filter and the chronological sort. -/
def metricEpoch (m : Metric) : Int := m.epoch.getD 0

/-- The dict-of-lists accumulation `pod_metrics[pod_id].append(metric)`
of the read loop (lines 88-100): an existing group grows at its end, a
new pod id opens a group at the end of the dict. -/
def addToGroup : List (String × List Metric) → String → Metric →
    List (String × List Metric)
  | [], pid, m => [(pid, [m])]
  | p :: t, pid, m =>
      if p.1 = pid then (p.1, p.2 ++ [m]) :: t else p :: addToGroup t pid m

/-- The read loop of `initialize_from_jsonl` (lines 88-100): keep the
records with a truthy `pod_id` and `epoch` at or after the cutoff,
grouped by pod in file order. -/
def groupPodMetrics (log : List Metric) (cutoff : Int) :
    List (String × List Metric) :=
  log.foldl (fun acc m =>
    let pid := m.pod_id.getD ""
    if pid ≠ "" ∧ cutoff ≤ metricEpoch m then addToGroup acc pid m else acc) []

/-- The backward walk of `initialize_from_jsonl` (lines 114-123) over
the reversed chronological list: count consecutive below-threshold
records, breaking at the first record at or above threshold.
`first_below_epoch` is assigned by `metric.get('epoch')` at the first
below-threshold record whose epoch key is present (the `is None` guard
keeps the first assignment, so it is the epoch of the NEWEST record of
the streak, not of the oldest one). -/
def streakWalk (thresholds : Thresholds) : List Metric → Nat × Option Int
  | [] => (0, none)
  | m :: rest =>
      if _is_below_threshold m thresholds then
        let r := streakWalk thresholds rest
        (r.1 + 1, match m.epoch with | some e => some e | none => r.2)
      else
        (0, none)

/-- The counter entry built for one pod by `initialize_from_jsonl`
(lines 106-140): sort the kept records chronologically (Python
`list.sort` is stable; `insertionSort` with a total preorder is its
model), walk backward from the newest record, and take metadata from
the most recent record. -/
def initEntry (thresholds : Thresholds) (now : Int) (ms : List Metric) :
    CounterEntry :=
  let sorted := List.insertionSort
    (fun a b => metricEpoch a ≤ metricEpoch b) ms
  let w := streakWalk thresholds sorted.reverse
  let last_metric := sorted.getLastD {}
  { consecutive_below_threshold := w.1
    last_check_epoch := last_metric.epoch.getD now
    first_below_epoch := w.2
    last_cpu := last_metric.cpu_percent.getD 0
    last_gpu := last_metric.gpu_percent.getD 0
    last_memory := last_metric.memory_percent.getD 0
    pod_name := last_metric.name.getD ""
    status := last_metric.status.getD "UNKNOWN" }

/-- `AutoStopTracker.initialize_from_jsonl` (lines 68-143).  The log is
taken as the parsed record list (file reading, the missing-file early
return and the abort on a JSON parse error are I/O paths that leave the
state unchanged).  Note that the function uses the thresholds passed as
an argument, touches neither `self.thresholds` nor `self.excluded_pods`,
and never consults the excluded-pods list. -/
def initialize_from_jsonl (st : State) (log : List Metric)
    (thresholds : Thresholds) (now : Int) : State :=
  let cutoff := now - thresholds.duration.getD 3600
  let groups := groupPodMetrics log cutoff
  let counters := groups.foldl (fun cs g =>
    match g.2 with
    | [] => cs
    | _ => alInsert cs g.1 (initEntry thresholds now g.2)) st.counters
  { st with counters := counters }

end AutoStopTracker

/-! ## MetricWriter (src/runpod_monitor/metric_writer.py) and the hook
functions of src/runpod_monitor/hooks.py -/

namespace MetricWriter

/-- Outcome of calling one pre-write hook inside `write_metric`
(lines 126-134): the hook returns a (possibly transformed) metric,
returns `None` (the writer then returns `False` and persists nothing),
or raises (the writer catches the exception, logs it and continues with
the NEXT hook on the unmodified metric). -/
inductive HookResult where
  | ok (m : Metric)
  | returnedNone
  | raised
deriving DecidableEq

/-- The pre-write loop of `write_metric` (lines 126-134). `none` means
the write is rejected. -/
def runPreWriteHooks : List (Metric → HookResult) → Metric → Option Metric
  | [], m => some m
  | h :: rest, m =>
      match h m with
      | HookResult.ok m1 => runPreWriteHooks rest m1
      | HookResult.returnedNone => none
      | HookResult.raised => runPreWriteHooks rest m

/-- Writer-side state threaded through `write_metric`: the JSONL log as
the list of appended records, the write counter, and the global
auto-stop tracker mutated by the post-write hook. -/
structure WriterState where
  log : List Metric := []
  write_count : Nat := 0
  tracker : AutoStopTracker.State := {}
deriving DecidableEq

/-- `hooks.validate_metric_hook` (hooks.py lines 70-84): raises
`ValueError` when `pod_id`, `timestamp` or `epoch` is missing, otherwise
returns the metric unchanged. -/
def validate_metric_hook (m : Metric) : HookResult :=
  if m.pod_id.isSome && m.timestamp.isSome && m.epoch.isSome then
    HookResult.ok m
  else
    HookResult.raised

/-- `hooks.update_auto_stop_counter_hook` (hooks.py lines 123-150):
update the global tracker counter with the record just written (the
subsequent `check_auto_stop` call there only prints).  The
tracker-not-initialized early return is the caller passing the state
unchanged. -/
def update_auto_stop_counter_hook (now : Int) (m : Metric)
    (tracker : AutoStopTracker.State) : AutoStopTracker.State :=
  AutoStopTracker.update_counter tracker m now

/-- `MetricWriter.write_metric` (lines 113-154).  The durable append is
abstracted by `appendOk`: `true` models `f.write` succeeding, `false`
models it raising `IOError`, in which case the function returns `False`
from the handler at lines 152-154 before `write_count` is bumped and
before any post-write hook runs.  Post-write hooks are modelled as
tracker transformers (a raising post-write hook is caught and skipped by
lines 143-147; the hooks relevant here are total). -/
def write_metric (pre : List (Metric → HookResult))
    (post : List (Metric → AutoStopTracker.State → AutoStopTracker.State))
    (appendOk : Bool) (st : WriterState) (metric_point : Metric) :
    Bool × WriterState :=
  match runPreWriteHooks pre metric_point with
  | none => (false, st)
  | some m1 =>
      if appendOk then
        let st1 : WriterState :=
          { st with log := st.log ++ [m1], write_count := st.write_count + 1 }
        let tracker1 := post.foldl (fun tr h => h m1 tr) st1.tracker
        (true, { st1 with tracker := tracker1 })
      else
        (false, st)

end MetricWriter

/-! ## DataTracker retention sweep (src/runpod_monitor/data_tracker.py) -/

namespace DataTracker

/-- The retention-policy argument of `cleanup_old_data`: either not a
dict at all (for example the integer `retention_days` value that
`monitor_pods` passes at main.py line 547), or a dict whose `value` and
`unit` keys are read with `dict.get`. -/
inductive RetentionConfig where
  | notDict
  | ofDict (value : Option Int) (unit : Option String)
deriving DecidableEq

/-- The `seconds_map` literal of `cleanup_old_data` (lines 452-458),
with the fallback to `days` for an unknown unit (lines 460-462). -/
def secondsMap (unit : String) : Int :=
  if unit = "hours" then 3600
  else if unit = "days" then 24 * 3600
  else if unit = "weeks" then 7 * 24 * 3600
  else if unit = "months" then 30 * 24 * 3600
  else if unit = "years" then 365 * 24 * 3600
  else 24 * 3600

/-- `DataTracker.cleanup_old_data` (lines 430-477) acting on the
in-memory `self.data` dict of pod id to record list (`save_data` is file
I/O).  A non-dict config is skipped with a warning; `forever`, and
`years` with value at least 999 (the `value` default is 0 HERE), are
no-ops; otherwise records strictly older than the cutoff are dropped and
a pod whose list becomes empty is removed. -/
def cleanup_old_data (data : List (String × List Metric))
    (retention_config : RetentionConfig) (now : Int) :
    List (String × List Metric) :=
  match retention_config with
  | RetentionConfig.notDict => data
  | RetentionConfig.ofDict v u =>
      if u = some "forever" then data
      else if u = some "years" ∧ 999 ≤ v.getD 0 then data
      else
        let value := v.getD 30
        let unit := u.getD "days"
        let cutoff := now - value * secondsMap unit
        data.filterMap (fun p =>
          let kept := p.2.filter (fun m => cutoff ≤ AutoStopTracker.metricEpoch m)
          if kept.isEmpty then none else some (p.1, kept))

end DataTracker

/-! ## PodMetricsManager compaction (src/runpod_monitor/pod_metrics_manager.py) -/

namespace PodMetricsManager

open AutoStopTracker (metricEpoch)

/-- One aggregated rollup window, mirroring the dict literal of
`compact_metrics` (lines 442-472).  The ISO-formatted `window_start` and
`window_end` strings are presentational duplicates of the epochs and are
not modelled. -/
structure RollupWindow where
  window_start_epoch : Int
  window_end_epoch : Int
  interval_minutes : Int
  pod_id : String
  name : String
  status : String
  metrics_count : Nat
  cpu_avg : ℚ
  cpu_min : ℚ
  cpu_max : ℚ
  memory_avg : ℚ
  memory_min : ℚ
  memory_max : ℚ
  gpu_avg : ℚ
  gpu_min : ℚ
  gpu_max : ℚ
  cost_per_hr : ℚ
  uptime_start : Int
  uptime_end : Int
deriving DecidableEq

/-- Python `round(x, 2)`, abstracted as exact decimal rounding of the
rational value (binary floating point artifacts are out of scope; no
claim depends on the rounded digits). -/
def round2 (x : ℚ) : ℚ := (⌊x * 100 + 1 / 2⌋ : ℚ) / 100

/-- `min(values)` over a nonempty Python list, 0 for the empty guard. -/
def qmin : List ℚ → ℚ
  | [] => 0
  | a :: t => t.foldl min a

/-- `max(values)` over a nonempty Python list, 0 for the empty guard. -/
def qmax : List ℚ → ℚ
  | [] => 0
  | a :: t => t.foldl max a

/-- `round(sum(values) / len(values), 2) if values else 0`. -/
def qavg (l : List ℚ) : ℚ :=
  if l.isEmpty then 0 else round2 (l.sum / l.length)

/-- The bucket key `(epoch // interval_seconds) * interval_seconds`
(line 414).  Python `//` is floor division; for the positive interval
sizes used here Euclidean division (`Int.ediv`) coincides with it. -/
def windowStart (epoch interval_seconds : Int) : Int :=
  epoch.ediv interval_seconds * interval_seconds

/-- The skip condition of lines 428-431: the window is still in
progress (`window_end > now`) and not yet more than two intervals
stale. -/
def emitSkip (window_start interval_seconds now : Int) : Bool :=
  decide (now < window_start + interval_seconds) &&
  decide (now - window_start < interval_seconds * 2)

/-- `existing_compacted[-1].get('window_end_epoch', 0)` when the
compacted store is nonempty, else 0 (lines 398-401). -/
def lastProcessedEpoch (compacted : List RollupWindow) : Int :=
  match compacted.getLast? with
  | none => 0
  | some w => w.window_end_epoch

/-- The aggregate record built for one bucket (lines 433-472), over the
records of that bucket in raw-file order. -/
def mkWindow (pod_id : String) (interval_minutes : Int) (window_start : Int)
    (ms : List Metric) : RollupWindow :=
  let interval_seconds := interval_minutes * 60
  let cpu_values := ms.filterMap (fun m => m.cpu_percent)
  let memory_values := ms.filterMap (fun m => m.memory_percent)
  let gpu_values := ms.filterMap (fun m => m.gpu_percent)
  let first_metric := ms.headD {}
  let last_metric := ms.getLastD {}
  { window_start_epoch := window_start
    window_end_epoch := window_start + interval_seconds
    interval_minutes := interval_minutes
    pod_id := pod_id
    name := last_metric.name.getD ""
    status := last_metric.status.getD "UNKNOWN"
    metrics_count := ms.length
    cpu_avg := qavg cpu_values
    cpu_min := if cpu_values.isEmpty then 0 else round2 (qmin cpu_values)
    cpu_max := if cpu_values.isEmpty then 0 else round2 (qmax cpu_values)
    memory_avg := qavg memory_values
    memory_min := if memory_values.isEmpty then 0 else round2 (qmin memory_values)
    memory_max := if memory_values.isEmpty then 0 else round2 (qmax memory_values)
    gpu_avg := qavg gpu_values
    gpu_min := if gpu_values.isEmpty then 0 else round2 (qmin gpu_values)
    gpu_max := if gpu_values.isEmpty then 0 else round2 (qmax gpu_values)
    cost_per_hr := last_metric.cost_per_hr.getD 0
    uptime_start := first_metric.uptime_seconds.getD 0
    uptime_end := last_metric.uptime_seconds.getD 0 }

/-- The one-week cap of `_apply_rolling_window` (lines 331-370): for the
two supported resolutions keep only the most recent 336 or 168 lines of
the compacted store; other intervals are untouched. -/
def _apply_rolling_window (lines : List RollupWindow)
    (interval_minutes : Int) : List RollupWindow :=
  let max_points : Option Nat :=
    if interval_minutes = 30 then some (48 * 7)
    else if interval_minutes = 60 then some (24 * 7)
    else none
  match max_points with
  | none => lines
  | some mp => if mp < lines.length then lines.drop (lines.length - mp) else lines

/-- The unprocessed raw records: those strictly newer than the end of
the last compacted window (lines 408-415). -/
def metricsToProcess (raw : List Metric) (compacted : List RollupWindow) :
    List Metric :=
  raw.filter (fun m => lastProcessedEpoch compacted < metricEpoch m)

/-- The distinct bucket keys of the records to process, in ascending
order — `sorted(windows.keys())` at line 424.  The `defaultdict`
grouping keyed by `window_start` is modelled extensionally: the key set
is the set of bucket keys of the processed records, and each bucket
holds the processed records with that key in file order. -/
def windowKeys (mtp : List Metric) (interval_seconds : Int) : List Int :=
  List.insertionSort (fun a b => a ≤ b)
    ((mtp.map (fun m => windowStart (metricEpoch m) interval_seconds)).dedup)

/-- The windows the emission loop (lines 424-478) appends to the
compacted store, in ascending bucket order, omitting skipped
in-progress buckets. -/
def emittedWindows (pod_id : String) (interval_minutes : Int)
    (mtp : List Metric) (now : Int) : List RollupWindow :=
  ((windowKeys mtp (interval_minutes * 60)).filter
      (fun ws => ¬ emitSkip ws (interval_minutes * 60) now = true)).map
    (fun ws => mkWindow pod_id interval_minutes ws
      (mtp.filter
        (fun m => windowStart (metricEpoch m) (interval_minutes * 60) = ws)))

/-- `PodMetricsManager.compact_metrics` (lines 372-486), with the raw
and compacted stores as explicit lists and `datetime.now().timestamp()`
the explicit `now`.  Returns the new compacted store together with the
`(windows_created, metrics_processed)` pair of the source. -/
def compact_metrics (raw : List Metric) (compacted : List RollupWindow)
    (pod_id : String) (now : Int) (interval_minutes : Int) :
    List RollupWindow × Nat × Nat :=
  if ¬ (interval_minutes = 30 ∨ interval_minutes = 60) then (compacted, 0, 0)
  else if raw.isEmpty then (compacted, 0, 0)
  else if (metricsToProcess raw compacted).isEmpty then (compacted, 0, 0)
  else if (emittedWindows pod_id interval_minutes
      (metricsToProcess raw compacted) now).length = 0 then
    (compacted,
     (emittedWindows pod_id interval_minutes
       (metricsToProcess raw compacted) now).length,
     (metricsToProcess raw compacted).length)
  else
    (_apply_rolling_window
      (compacted ++ emittedWindows pod_id interval_minutes
        (metricsToProcess raw compacted) now) interval_minutes,
     (emittedWindows pod_id interval_minutes
       (metricsToProcess raw compacted) now).length,
     (metricsToProcess raw compacted).length)

end PodMetricsManager

/-! ## Claim theorems -/

/-- A successful lookup is a membership witness. -/
theorem alLookup_mem (l : List (String × β)) (k : String) (v : β)
    (h : alLookup l k = some v) : (k, v) ∈ l := by
  induction l with
  | nil => simp [alLookup] at h
  | cons p t ih =>
      by_cases hp : p.1 = k
      · simp only [alLookup, hp, if_pos] at h
        have hv : p.2 = v := Option.some.inj h
        have hpkv : p = (k, v) := Prod.ext_iff.mpr ⟨hp, hv⟩
        rw [← hpkv]
        exact List.mem_cons_self _ _
      · simp only [alLookup, hp, if_neg, not_false_iff] at h
        exact List.mem_cons_of_mem _ (ih h)

/-- C10: for every metric sample carrying pod id `p`, `update_counter`
modifies at most the counter entry of `p`; the entry of every other pod
is unchanged. -/
theorem update_counter_frame (st : AutoStopTracker.State) (m : Metric)
    (now : Int) (p q : String) (hpod : m.pod_id = some p) (hq : q ≠ p) :
    alLookup (AutoStopTracker.update_counter st m now).counters q =
      alLookup st.counters q := by
  by_cases h0 : p = ""
  · simp [AutoStopTracker.update_counter, hpod, h0]
  · by_cases hex : p ∈ st.excluded_pods ∨ m.name.getD "" ∈ st.excluded_pods
    · simp [AutoStopTracker.update_counter, hpod, h0, hex,
        alLookup_alErase_ne _ _ _ hq]
    · by_cases hst : m.status.getD "UNKNOWN" = "RUNNING"
      · cases halc : alLookup st.counters p with
        | none =>
            simp [AutoStopTracker.update_counter, hpod, h0, hex, hst, halc,
              alLookup_alInsert_ne _ _ _ _ hq]
        | some c =>
            simp [AutoStopTracker.update_counter, hpod, h0, hex, hst, halc,
              alLookup_alInsert_ne _ _ _ _ hq]
      · simp [AutoStopTracker.update_counter, hpod, h0, hex, hst,
          alLookup_alErase_ne _ _ _ hq]

/-- C10 witness: a concrete instantiation of the frame property. -/
theorem update_counter_frame_witness :
    alLookup (AutoStopTracker.update_counter
        { counters := [], thresholds := {}, excluded_pods := [] }
        { pod_id := some "p1", status := some "RUNNING" } 77).counters "p2" =
      alLookup ([] : List (String × CounterEntry)) "p2" :=
  update_counter_frame _ _ 77 "p1" "p2" rfl (by decide)

/-- C3: when the durable append raises IOError, `write_metric` returns
failure and the state — in particular the idle counter store mutated by
`update_auto_stop_counter_hook` — is unchanged: no post-write hook runs
before a successful append. -/
theorem write_metric_io_failure (pre : List (Metric → MetricWriter.HookResult))
    (otherPost : List (Metric → AutoStopTracker.State → AutoStopTracker.State))
    (now : Int) (st : MetricWriter.WriterState) (m : Metric) :
    MetricWriter.write_metric pre
      (MetricWriter.update_auto_stop_counter_hook now :: otherPost)
      false st m = (false, st) := by
  unfold MetricWriter.write_metric
  cases h : MetricWriter.runPreWriteHooks pre m with
  | none => rfl
  | some m1 => rfl

/-- C4 (code bug evidence): a sample missing the required `timestamp`
field sails through the pipeline.  `validate_metric_hook` raises, but
`write_metric` catches exceptions from pre-write hooks and continues
(metric_writer.py lines 132-134), so the write returns `True`, the
invalid record is appended to the log, and the post-write counter hook
runs (it creates an idle-counter entry for the pod). -/
theorem write_metric_swallows_validation_error :
    let m0 : Metric :=
      { pod_id := some "p1", epoch := some 50, status := some "RUNNING",
        cpu_percent := some 0, gpu_percent := some 0, memory_percent := some 0 }
    let r := MetricWriter.write_metric [MetricWriter.validate_metric_hook]
      [MetricWriter.update_auto_stop_counter_hook 100] true {} m0
    r.1 = true ∧ r.2.log = [m0] ∧ r.2.write_count = 1 ∧
      ∃ e, alLookup r.2.tracker.counters "p1" = some e ∧
        e.consecutive_below_threshold = 1 := by
  refine ⟨rfl, rfl, rfl, ?_⟩
  exact ⟨_, rfl, rfl⟩

/-- C2 counterexample: a tracked entry reachable through three
`update_counter` calls (below-threshold RUNNING samples at epochs 0, 60,
120) satisfies both conditions of the claim — `consecutive ≥ 3` and
`now - first_below_epoch ≥ duration` — yet `check_auto_stop` returns
`shouldStop = false`, because the guard at line 254 tests the Python
truthiness of `first_below_epoch` and the streak began at epoch 0. -/
theorem check_auto_stop_false_at_epoch_zero :
    let ths : Thresholds :=
      { max_cpu_percent := some 1, max_gpu_percent := some 1,
        max_memory_percent := some 1, duration := some 3600 }
    let mk : Int → Metric := fun e =>
      { pod_id := some "p1", name := some "w", status := some "RUNNING",
        epoch := some e, cpu_percent := some 0, gpu_percent := some 0,
        memory_percent := some 0 }
    let st0 : AutoStopTracker.State :=
      { counters := [], thresholds := ths, excluded_pods := [] }
    let st := AutoStopTracker.update_counter
      (AutoStopTracker.update_counter
        (AutoStopTracker.update_counter st0 (mk 0) 0) (mk 60) 60) (mk 120) 120
    ∃ e, alLookup st.counters "p1" = some e ∧
      3 ≤ e.consecutive_below_threshold ∧
      e.first_below_epoch = some 0 ∧
      st.thresholds.duration.getD 3600 ≤ (5000 : Int) - 0 ∧
      (AutoStopTracker.check_auto_stop st 5000 "p1").1 = false := by
  exact ⟨_, rfl, by decide, rfl, by decide, rfl⟩

/-- C2 amended: for a tracked pod, `check_auto_stop` returns
`shouldStop = true` iff the entry has `consecutive_below_threshold ≥ 3`
(the `min_data_points` constant) and a truthy — that is, nonzero —
`first_below_epoch` with `now - first_below_epoch ≥ duration`. -/
theorem check_auto_stop_characterization (st : AutoStopTracker.State)
    (p : String) (now : Int) (e : CounterEntry)
    (h : alLookup st.counters p = some e) :
    (AutoStopTracker.check_auto_stop st now p).1 = true ↔
      (3 ≤ e.consecutive_below_threshold ∧
        ∃ fb, e.first_below_epoch = some fb ∧ fb ≠ 0 ∧
          st.thresholds.duration.getD 3600 ≤ now - fb) := by
  unfold AutoStopTracker.check_auto_stop
  rw [h]
  cases hfb : e.first_below_epoch with
  | none => simp [AutoStopTracker.optTruthy, hfb]
  | some fb =>
      by_cases hz : fb = 0
      · subst hz
        simp [AutoStopTracker.optTruthy, hfb]
      · by_cases h3 : 3 ≤ e.consecutive_below_threshold
        · have h0 : 0 < e.consecutive_below_threshold := by omega
          by_cases hd : st.thresholds.duration.getD 3600 ≤ now - fb
          · simp [AutoStopTracker.optTruthy, hfb, hz, h0, h3, hd]
          · simp [AutoStopTracker.optTruthy, hfb, hz, h0, h3, hd]
        · by_cases h0 : 0 < e.consecutive_below_threshold
          · simp [AutoStopTracker.optTruthy, hfb, hz, h0, h3]
          · simp [AutoStopTracker.optTruthy, hfb, hz, h0, h3]

/-- C2 amended witness: the characterization evaluated at a concrete
tracked entry. -/
theorem check_auto_stop_characterization_witness :
    (let e1 : CounterEntry :=
      { consecutive_below_threshold := 3, last_check_epoch := 120,
        first_below_epoch := some 7, last_cpu := 0, last_gpu := 0,
        last_memory := 0, pod_name := "w", status := "RUNNING" }
     let st1 : AutoStopTracker.State :=
      { counters := [("p1", e1)],
        thresholds := { duration := some 10 }, excluded_pods := [] }
     (AutoStopTracker.check_auto_stop st1 100 "p1").1 = true ↔
      (3 ≤ e1.consecutive_below_threshold ∧
        ∃ fb, e1.first_below_epoch = some fb ∧ fb ≠ 0 ∧
          st1.thresholds.duration.getD 3600 ≤ 100 - fb)) :=
  check_auto_stop_characterization _ "p1" 100 _ rfl

/-- C1 counterexample: a reachable tracker state — `set_thresholds` with
`excluded_pods = ["p1"]` followed by `initialize_from_jsonl` over a log
holding three qualifying samples for `p1` — in which `check_auto_stop`
returns `shouldStop = true` for the excluded pod: neither
`check_auto_stop` (lines 238-263) nor `initialize_from_jsonl`
(lines 68-143) consults the excluded-pods list. -/
theorem check_auto_stop_ignores_exclusion :
    let ths : Thresholds :=
      { max_cpu_percent := some 1, max_gpu_percent := some 1,
        max_memory_percent := some 1, duration := some 3600 }
    let mk : Int → Metric := fun e =>
      { pod_id := some "p1", name := some "w", status := some "RUNNING",
        epoch := some e, cpu_percent := some 0, gpu_percent := some 0,
        memory_percent := some 0 }
    let st := AutoStopTracker.initialize_from_jsonl
      (AutoStopTracker.set_thresholds {} ths ["p1"])
      [mk 7000, mk 7060, mk 7120] ths 10000
    "p1" ∈ st.excluded_pods ∧
      (AutoStopTracker.check_auto_stop st 20000 "p1").1 = true := by
  exact ⟨by decide, by decide⟩

/-- C1 amended: exclusion is enforced by `update_counter`, not by
`check_auto_stop`.  After `update_counter` processes a sample of an
excluded pod (matched by id or by current display name) the pod has no
counter entry, and `check_auto_stop` returns `(false, none)` for any
pod without an entry; so states maintained by `update_counter` alone
satisfy the claim, while `initialize_from_jsonl` can break it. -/
theorem excluded_pod_no_auto_stop (st : AutoStopTracker.State) (m : Metric)
    (p : String) (now now2 : Int) :
    (m.pod_id = some p → p ≠ "" →
      (p ∈ st.excluded_pods ∨ m.name.getD "" ∈ st.excluded_pods) →
      AutoStopTracker.check_auto_stop
        (AutoStopTracker.update_counter st m now) now2 p = (false, none))
    ∧ (alLookup st.counters p = none →
      AutoStopTracker.check_auto_stop st now2 p = (false, none)) := by
  constructor
  · intro hpod hne hex
    have hnone : alLookup (AutoStopTracker.update_counter st m now).counters p
        = none := by
      unfold AutoStopTracker.update_counter
      rw [hpod]
      simp [hne, hex, alLookup_alErase_self]
    simp [AutoStopTracker.check_auto_stop, hnone]
  · intro h
    simp [AutoStopTracker.check_auto_stop, h]

/-- C1 amended witness: both components evaluated at concrete inputs. -/
theorem excluded_pod_no_auto_stop_witness :
    (AutoStopTracker.check_auto_stop
      (AutoStopTracker.update_counter
        { counters := [], thresholds := {}, excluded_pods := ["p1"] }
        { pod_id := some "p1" } 5) 6 "p1" = (false, none))
    ∧ (AutoStopTracker.check_auto_stop
      { counters := [], thresholds := {}, excluded_pods := [] } 6 "p2"
        = (false, none)) :=
  ⟨(excluded_pod_no_auto_stop
      { counters := [], thresholds := {}, excluded_pods := ["p1"] }
      { pod_id := some "p1" } "p1" 5 6).1 rfl (by decide) (Or.inl (by decide)),
   (excluded_pod_no_auto_stop
      { counters := [], thresholds := {}, excluded_pods := [] }
      { pod_id := some "p1" } "p2" 5 6).2 rfl⟩

/-- C5 (code bug evidence): the rebuild of `initialize_from_jsonl`
diverges from the exact counter state (the state the incremental
`update_counter` path produces on the same history) in two ways.  With
three below-threshold RUNNING samples at epochs 100, 160, 220 the
rebuild reports `first_below_epoch = 220` — the NEWEST sample of the
streak, because the `is None` guard at lines 120-121 keeps the first
assignment of the reversed walk — while the incremental path reports the
streak start 100.  And with the middle sample non-RUNNING (`EXITED`) the
backward walk does not stop (lines 117-123 never test `status`), giving
a streak of 3 where the incremental path holds a streak of 1. -/
theorem initialize_from_jsonl_streak_divergence :
    let ths : Thresholds :=
      { max_cpu_percent := some 1, max_gpu_percent := some 1,
        max_memory_percent := some 1, duration := some 3600 }
    let mk : Int → String → Metric := fun e s =>
      { pod_id := some "p1", name := some "w", status := some s,
        epoch := some e, cpu_percent := some 0, gpu_percent := some 0,
        memory_percent := some 0 }
    let log1 := [mk 100 "RUNNING", mk 160 "RUNNING", mk 220 "RUNNING"]
    let log2 := [mk 100 "RUNNING", mk 160 "EXITED", mk 220 "RUNNING"]
    let st0 : AutoStopTracker.State :=
      { counters := [], thresholds := ths, excluded_pods := [] }
    let replay : List Metric → AutoStopTracker.State := fun lg =>
      lg.foldl (fun s mm => AutoStopTracker.update_counter s mm 1000) st0
    (∃ e, alLookup (AutoStopTracker.initialize_from_jsonl st0 log1 ths 1000).counters
        "p1" = some e ∧
      e.consecutive_below_threshold = 3 ∧ e.first_below_epoch = some 220) ∧
    (∃ e, alLookup (replay log1).counters "p1" = some e ∧
      e.consecutive_below_threshold = 3 ∧ e.first_below_epoch = some 100) ∧
    (∃ e, alLookup (AutoStopTracker.initialize_from_jsonl st0 log2 ths 1000).counters
        "p1" = some e ∧
      e.consecutive_below_threshold = 3 ∧ e.first_below_epoch = some 220) ∧
    (∃ e, alLookup (replay log2).counters "p1" = some e ∧
      e.consecutive_below_threshold = 1 ∧ e.first_below_epoch = some 220) := by
  exact ⟨⟨_, rfl, by decide, by decide⟩, ⟨_, rfl, by decide, by decide⟩,
    ⟨_, rfl, by decide, by decide⟩, ⟨_, rfl, by decide, by decide⟩⟩

/-- Boolean form of the data-model invariant of one idle-counter entry:
`consecutive_below_threshold > 0` iff `first_below_epoch` is non-null. -/
def entryInvB (e : CounterEntry) : Bool :=
  decide (0 < e.consecutive_below_threshold) == e.first_below_epoch.isSome

/-- The invariant over every entry of a counters dict. -/
def countersInv (cs : List (String × CounterEntry)) : Prop :=
  ∀ pe ∈ cs, entryInvB pe.2 = true

theorem entryInvB_iff (e : CounterEntry) : entryInvB e = true ↔
    (0 < e.consecutive_below_threshold ↔ e.first_below_epoch.isSome = true) := by
  unfold entryInvB
  cases hfb : e.first_below_epoch <;>
    by_cases h1 : 0 < e.consecutive_below_threshold <;> simp [h1, hfb]

/-- The backward walk yields a positive streak iff it assigned a
`first_below_epoch`, provided every scanned record carries an epoch
key. -/
theorem streakWalk_inv (ths : Thresholds) (ms : List Metric)
    (h : ∀ m ∈ ms, m.epoch.isSome = true) :
    (0 < (AutoStopTracker.streakWalk ths ms).1 ↔
      ((AutoStopTracker.streakWalk ths ms).2).isSome = true) := by
  cases ms with
  | nil => simp [AutoStopTracker.streakWalk]
  | cons m rest =>
      by_cases hb : AutoStopTracker._is_below_threshold m ths = true
      · have he := h m (List.mem_cons_self _ _)
        cases hep : m.epoch with
        | none => rw [hep] at he; simp at he
        | some e => simp [AutoStopTracker.streakWalk, hb, hep]
      · simp [AutoStopTracker.streakWalk, hb]

/-- The entry built for one pod by the rebuild satisfies the invariant
when every record of the group has an epoch key. -/
theorem initEntry_inv (ths : Thresholds) (now : Int) (ms : List Metric)
    (h : ∀ m ∈ ms, m.epoch.isSome = true) :
    entryInvB (AutoStopTracker.initEntry ths now ms) = true := by
  have hmem : ∀ m ∈ (List.insertionSort
      (fun a b => AutoStopTracker.metricEpoch a ≤ AutoStopTracker.metricEpoch b)
      ms).reverse, m.epoch.isSome = true := by
    intro m hm
    exact h m ((List.perm_insertionSort _ ms).mem_iff.mp (List.mem_reverse.mp hm))
  have hiff := streakWalk_inv ths _ hmem
  rw [entryInvB_iff]
  exact hiff

theorem mem_addToGroup (acc : List (String × List Metric)) (pid : String)
    (m : Metric) (g : String × List Metric)
    (hg : g ∈ AutoStopTracker.addToGroup acc pid m) (x : Metric)
    (hx : x ∈ g.2) : (∃ g0 ∈ acc, x ∈ g0.2) ∨ x = m := by
  induction acc with
  | nil =>
      simp only [AutoStopTracker.addToGroup, List.mem_singleton] at hg
      subst hg
      simpa using hx
  | cons p t ih =>
      by_cases hp : p.1 = pid
      · simp only [AutoStopTracker.addToGroup, hp, if_pos] at hg
        rcases List.mem_cons.mp hg with hh | hh
        · subst hh
          rcases List.mem_append.mp hx with hx2 | hx2
          · exact Or.inl ⟨p, List.mem_cons_self _ _, hx2⟩
          · exact Or.inr (by simpa using hx2)
        · exact Or.inl ⟨g, List.mem_cons_of_mem _ hh, hx⟩
      · simp only [AutoStopTracker.addToGroup, hp, if_neg, not_false_iff] at hg
        rcases List.mem_cons.mp hg with hh | hh
        · exact Or.inl ⟨g, hh ▸ List.mem_cons_self _ _, hx⟩
        · rcases ih hh with ⟨g0, hg0, hxg0⟩ | hh2
          · exact Or.inl ⟨g0, List.mem_cons_of_mem _ hg0, hxg0⟩
          · exact Or.inr hh2

/-- Every record stored in a group of the rebuild scan is a record of
the log. -/
theorem mem_groupPodMetrics (log : List Metric) (cutoff : Int)
    (g : String × List Metric)
    (hg : g ∈ AutoStopTracker.groupPodMetrics log cutoff)
    (x : Metric) (hx : x ∈ g.2) : x ∈ log := by
  suffices hgen : ∀ (l : List Metric) (acc : List (String × List Metric))
      (g : String × List Metric),
      g ∈ l.foldl (fun acc m =>
        let pid := m.pod_id.getD ""
        if pid ≠ "" ∧ cutoff ≤ AutoStopTracker.metricEpoch m then
          AutoStopTracker.addToGroup acc pid m
        else acc) acc →
      ∀ x ∈ g.2, (∃ g0 ∈ acc, x ∈ g0.2) ∨ x ∈ l by
    rcases hgen log [] g hg x hx with ⟨g0, hg0, _⟩ | hh
    · simp at hg0
    · exact hh
  intro l
  induction l with
  | nil =>
      intro acc g hg x hx
      exact Or.inl ⟨g, hg, hx⟩
  | cons m rest ih =>
      intro acc g hg x hx
      simp only [List.foldl_cons] at hg
      rcases ih _ g hg x hx with ⟨g0, hg0, hxg0⟩ | hh
      · by_cases hc : m.pod_id.getD "" ≠ "" ∧ cutoff ≤ AutoStopTracker.metricEpoch m
        · rw [if_pos hc] at hg0
          rcases mem_addToGroup acc _ m g0 hg0 x hxg0 with ⟨g1, hg1, hxg1⟩ | hxm
          · exact Or.inl ⟨g1, hg1, hxg1⟩
          · exact Or.inr (hxm ▸ List.mem_cons_self _ _)
        · rw [if_neg hc] at hg0
          exact Or.inl ⟨g0, hg0, hxg0⟩
      · exact Or.inr (List.mem_cons_of_mem _ hh)

/-- C6 counterexample: starting from an empty (invariant-satisfying)
counter store, `initialize_from_jsonl` over a log whose single
below-threshold record has no `epoch` key (kept by the window filter
because its epoch defaults to 0 and the configured duration reaches back
past it) creates an entry with a positive streak and a null
`first_below_epoch`, breaking the invariant. -/
theorem initialize_from_jsonl_breaks_invariant :
    let ths : Thresholds := { duration := some 10000 }
    let m : Metric := { pod_id := some "p1" }
    let st := AutoStopTracker.initialize_from_jsonl
      { counters := [], thresholds := {}, excluded_pods := [] } [m] ths 1000
    ∃ e, alLookup st.counters "p1" = some e ∧
      0 < e.consecutive_below_threshold ∧ e.first_below_epoch = none ∧
      entryInvB e = false := by
  exact ⟨_, rfl, by decide, rfl, by decide⟩

/-- C6 amended: `update_counter`, `reset_counter` and
`cleanup_stale_counters` preserve the invariant unconditionally, and
`initialize_from_jsonl` preserves it provided every scanned log record
carries an `epoch` key (a keyless record at the tail of the window can
produce a positive streak with a null `first_below_epoch`). -/
theorem counter_invariant_preserved (st : AutoStopTracker.State) (m : Metric)
    (log : List Metric) (ths : Thresholds) (now now2 : Int) (p : String)
    (maxAge : Int) (h : countersInv st.counters) :
    countersInv (AutoStopTracker.update_counter st m now).counters
    ∧ ((∀ mm ∈ log, mm.epoch.isSome = true) →
        countersInv (AutoStopTracker.initialize_from_jsonl st log ths now).counters)
    ∧ countersInv (AutoStopTracker.reset_counter st p).counters
    ∧ countersInv (AutoStopTracker.cleanup_stale_counters st now2 maxAge).counters := by
  refine ⟨?_, ?_, ?_, ?_⟩
  · by_cases h0 : m.pod_id.getD "" = ""
    · simpa [AutoStopTracker.update_counter, h0] using h
    · by_cases hex : m.pod_id.getD "" ∈ st.excluded_pods ∨
          m.name.getD "" ∈ st.excluded_pods
      · simp only [AutoStopTracker.update_counter, h0, hex, if_neg, if_pos,
          not_false_iff]
        intro pe hpe
        exact h pe (mem_alErase _ _ _ hpe)
      · by_cases hst : m.status.getD "UNKNOWN" = "RUNNING"
        · have hstep : ¬ (m.status.getD "UNKNOWN" ≠ "RUNNING") :=
            fun hc => hc hst
          cases halc : alLookup st.counters (m.pod_id.getD "") with
          | none =>
              simp only [AutoStopTracker.update_counter, h0, hex, if_neg,
                if_pos, not_false_iff]
              rw [if_neg hstep, halc]
              intro pe hpe
              rcases mem_alInsert _ _ _ _ hpe with hold | heq
              · exact h pe hold
              · rw [heq]
                by_cases hb : AutoStopTracker._is_below_threshold m st.thresholds = true <;>
                  simp [entryInvB, hb]
          | some c =>
              have hcinv := h _ (alLookup_mem _ _ _ halc)
              simp only [AutoStopTracker.update_counter, h0, hex, if_neg,
                if_pos, not_false_iff]
              rw [if_neg hstep, halc]
              intro pe hpe
              rcases mem_alInsert _ _ _ _ hpe with hold | heq
              · exact h pe hold
              · rw [heq]
                by_cases hb : AutoStopTracker._is_below_threshold m st.thresholds = true
                · by_cases hc0 : c.consecutive_below_threshold = 0
                  · simp [entryInvB, hb, hc0]
                  · have hsome : c.first_below_epoch.isSome = true :=
                      ((entryInvB_iff c).mp hcinv).mp (Nat.pos_of_ne_zero hc0)
                    simp [entryInvB, hb, hc0, hsome]
                · simp [entryInvB, hb]
        · simp only [AutoStopTracker.update_counter, h0, hex, if_neg, if_pos,
            not_false_iff]
          rw [if_pos hst]
          intro pe hpe
          exact h pe (mem_alErase _ _ _ hpe)
  · intro hlog
    have hgroups : ∀ g ∈ AutoStopTracker.groupPodMetrics log
        (now - ths.duration.getD 3600), ∀ x ∈ g.2, x.epoch.isSome = true := by
      intro g hg x hx
      exact hlog x (mem_groupPodMetrics _ _ g hg x hx)
    suffices hfold : ∀ (gs : List (String × List Metric))
        (cs : List (String × CounterEntry)), countersInv cs →
        (∀ g ∈ gs, ∀ x ∈ g.2, x.epoch.isSome = true) →
        countersInv (gs.foldl (fun cs g =>
          match g.2 with
          | [] => cs
          | _ => alInsert cs g.1 (AutoStopTracker.initEntry ths now g.2)) cs) by
      simpa [AutoStopTracker.initialize_from_jsonl] using
        hfold _ st.counters h hgroups
    intro gs
    induction gs with
    | nil =>
        intro cs hcs _
        simpa using hcs
    | cons g rest ih =>
        intro cs hcs hgs
        simp only [List.foldl_cons]
        apply ih
        · cases hg2 : g.2 with
          | nil => simpa [hg2] using hcs
          | cons a t =>
              simp only [hg2]
              intro pe hpe
              rcases mem_alInsert _ _ _ _ hpe with hold | heq
              · exact hcs pe hold
              · rw [heq]
                exact initEntry_inv ths now (a :: t)
                  (fun x hx => hgs g (List.mem_cons_self _ _) x (hg2 ▸ hx))
        · intro g2 hg2 x hx
          exact hgs g2 (List.mem_cons_of_mem _ hg2) x hx
  · intro pe hpe
    exact h pe (mem_alErase _ _ _ hpe)
  · intro pe hpe
    exact h pe (List.mem_of_mem_filter hpe)

/-- C6 amended witness: the four preserved operations evaluated from a
concrete invariant-satisfying store. -/
theorem counter_invariant_preserved_witness :
    (let st0 : AutoStopTracker.State :=
      { counters := [], thresholds := {}, excluded_pods := [] }
     let m0 : Metric := { pod_id := some "p1", epoch := some 9, status := some "RUNNING" }
     countersInv (AutoStopTracker.update_counter st0 m0 10).counters
     ∧ countersInv (AutoStopTracker.initialize_from_jsonl st0 [m0] {} 10).counters
     ∧ countersInv (AutoStopTracker.reset_counter st0 "p1").counters
     ∧ countersInv (AutoStopTracker.cleanup_stale_counters st0 11 7200).counters) := by
  have hthm := counter_invariant_preserved
    { counters := [], thresholds := {}, excluded_pods := [] }
    { pod_id := some "p1", epoch := some 9, status := some "RUNNING" }
    [{ pod_id := some "p1", epoch := some 9, status := some "RUNNING" }]
    {} 10 11 "p1" 7200 (by intro pe hpe; simp at hpe)
  exact ⟨hthm.1, hthm.2.1 (by decide), hthm.2.2.1, hthm.2.2.2⟩

/-- Records kept by the sweep for a pod id that is not a key of the
store: none. -/
theorem cleanup_lookup_not_mem (cutoff : Int) (t : List (String × List Metric))
    (p : String) (hp : p ∉ t.map Prod.fst) :
    alLookup (t.filterMap (fun pr =>
      let kept := pr.2.filter (fun m => cutoff ≤ AutoStopTracker.metricEpoch m)
      if kept.isEmpty then none else some (pr.1, kept))) p = none := by
  induction t with
  | nil => rfl
  | cons r rs ih =>
      have hr : ¬ r.1 = p := by
        intro hh
        exact hp (by simp [hh.symm])
      have hrs : p ∉ rs.map Prod.fst := fun hh => hp (List.mem_cons_of_mem _ hh)
      simp only [List.filterMap_cons]
      by_cases hk : (r.2.filter
          (fun m => cutoff ≤ AutoStopTracker.metricEpoch m)).isEmpty = true
      · rw [if_pos hk]
        exact ih hrs
      · rw [if_neg hk]
        simp only [alLookup]
        rw [if_neg hr]
        exact ih hrs

/-- Pointwise description of the sweep: the surviving list for a pod is
its old list filtered to the records at or after the cutoff, with the
pod dropped when nothing survives. -/
theorem cleanup_lookup (cutoff : Int) (data : List (String × List Metric))
    (p : String) (hn : (data.map Prod.fst).Nodup) :
    alLookup (data.filterMap (fun pr =>
      let kept := pr.2.filter (fun m => cutoff ≤ AutoStopTracker.metricEpoch m)
      if kept.isEmpty then none else some (pr.1, kept))) p
    = (alLookup data p).bind (fun ms =>
        let kept := ms.filter (fun m => cutoff ≤ AutoStopTracker.metricEpoch m)
        if kept.isEmpty then none else some kept) := by
  induction data with
  | nil => rfl
  | cons r rs ih =>
      have hn2 := (List.nodup_cons.mp hn).2
      simp only [List.filterMap_cons]
      by_cases hr : r.1 = p
      · have hnot : p ∉ rs.map Prod.fst := by
          have := (List.nodup_cons.mp hn).1
          simpa [hr] using this
        by_cases hk : (r.2.filter
            (fun m => cutoff ≤ AutoStopTracker.metricEpoch m)).isEmpty = true
        · rw [if_pos hk]
          rw [cleanup_lookup_not_mem cutoff rs p hnot]
          simp only [alLookup]
          rw [if_pos hr]
          simp only [Option.some_bind]
          rw [if_pos hk]
        · rw [if_neg hk]
          simp only [alLookup]
          rw [if_pos hr, if_pos hr]
          simp only [Option.some_bind]
          rw [if_neg hk]
      · by_cases hk : (r.2.filter
            (fun m => cutoff ≤ AutoStopTracker.metricEpoch m)).isEmpty = true
        · rw [if_pos hk]
          rw [ih hn2]
          simp only [alLookup]
          rw [if_neg hr]
        · rw [if_neg hk]
          simp only [alLookup]
          rw [if_neg hr, if_neg hr]
          exact ih hn2

/-- C8: with the policy `{value: 1, unit: hours}` the sweep keeps, for
every pod, exactly the records with `epoch ≥ now - 3600` in their
original order, removing the pod entry when its list becomes empty; a
`forever` policy, and a `years` policy with value at least 999, leave
the store untouched. -/
theorem cleanup_old_data_retention (data : List (String × List Metric))
    (now : Int) (p : String) (v : Option Int) (y : Int)
    (hn : (data.map Prod.fst).Nodup) (hy : 999 ≤ y) :
    alLookup (DataTracker.cleanup_old_data data
        (DataTracker.RetentionConfig.ofDict (some 1) (some "hours")) now) p
      = (alLookup data p).bind (fun ms =>
          let kept := ms.filter
            (fun m => now - 3600 ≤ AutoStopTracker.metricEpoch m)
          if kept.isEmpty then none else some kept)
    ∧ DataTracker.cleanup_old_data data
        (DataTracker.RetentionConfig.ofDict v (some "forever")) now = data
    ∧ DataTracker.cleanup_old_data data
        (DataTracker.RetentionConfig.ofDict (some y) (some "years")) now = data := by
  refine ⟨?_, ?_, ?_⟩
  · have hcut : now - 1 * DataTracker.secondsMap "hours" = now - 3600 := by
      norm_num [DataTracker.secondsMap]
    simpa [DataTracker.cleanup_old_data, hcut] using
      cleanup_lookup (now - 3600) data p hn
  · simp [DataTracker.cleanup_old_data]
  · simp [DataTracker.cleanup_old_data, hy]

/-- C8 witness: the sweep evaluated on a concrete two-pod store. -/
theorem cleanup_old_data_retention_witness :
    (let mOld : Metric := { pod_id := some "p2", epoch := some 100 }
     let data : List (String × List Metric) :=
       [("p1", [{ pod_id := some "p1", epoch := some 100 },
                { pod_id := some "p1", epoch := some 9000 }]), ("p2", [mOld])]
     alLookup (DataTracker.cleanup_old_data data
        (DataTracker.RetentionConfig.ofDict (some 1) (some "hours")) 10000) "p2"
      = (alLookup data "p2").bind (fun ms =>
          let kept := ms.filter
            (fun m => (10000 : Int) - 3600 ≤ AutoStopTracker.metricEpoch m)
          if kept.isEmpty then none else some kept)
     ∧ DataTracker.cleanup_old_data data
        (DataTracker.RetentionConfig.ofDict none (some "forever")) 10000 = data
     ∧ DataTracker.cleanup_old_data data
        (DataTracker.RetentionConfig.ofDict (some 999) (some "years")) 10000
          = data) :=
  cleanup_old_data_retention _ 10000 "p2" none 999 (by decide) (by decide)

/-- C9 counterexample: for a retention policy that is not a mapping —
exactly what `monitor_pods` passes, the integer `retention_days` value —
the sweep is skipped entirely: a record about 31 years older than any
30-day default cutoff survives untouched, so no fallback cleanup
happens. -/
theorem cleanup_old_data_skips_non_dict :
    let m : Metric := { pod_id := some "p1", epoch := some 0 }
    let data : List (String × List Metric) := [("p1", [m])]
    DataTracker.cleanup_old_data data DataTracker.RetentionConfig.notDict
        1000000000 = data
    ∧ AutoStopTracker.metricEpoch m < 1000000000 - 30 * 24 * 3600 := by
  exact ⟨rfl, by decide⟩

/-- C9 amended: a mapping with an unknown unit does fall back to the
safe default — it behaves exactly like the same policy with unit `days`
(so a missing value gives 30-day retention) — but a policy that is not a
mapping is skipped with a warning: the process continues and nothing at
all is cleaned up. -/
theorem cleanup_old_data_malformed_policy (data : List (String × List Metric))
    (now : Int) (v : Option Int) (u : String)
    (hu : u ∉ ["hours", "days", "weeks", "months", "years", "forever"]) :
    DataTracker.cleanup_old_data data
        (DataTracker.RetentionConfig.ofDict v (some u)) now
      = DataTracker.cleanup_old_data data
        (DataTracker.RetentionConfig.ofDict v (some "days")) now
    ∧ DataTracker.cleanup_old_data data DataTracker.RetentionConfig.notDict now
      = data := by
  constructor
  · have hfor : ¬ (u = "forever") := by
      intro hh
      exact hu (by simp [hh])
    have hyrs : ¬ (u = "years") := by
      intro hh
      exact hu (by simp [hh])
    have hsec : DataTracker.secondsMap u = DataTracker.secondsMap "days" := by
      simp only [DataTracker.secondsMap]
      have h1 : ¬ (u = "hours") := fun hh => hu (by simp [hh])
      have h2 : ¬ (u = "weeks") := fun hh => hu (by simp [hh])
      have h3 : ¬ (u = "months") := fun hh => hu (by simp [hh])
      simp [h1, h2, h3, hyrs, hfor]
    simp [DataTracker.cleanup_old_data, hfor, hyrs, hsec]
  · rfl

/-- C9 amended witness: evaluated with the unknown unit `parsecs` on a
concrete store. -/
theorem cleanup_old_data_malformed_policy_witness :
    (let data : List (String × List Metric) :=
      [("p1", [{ pod_id := some "p1", epoch := some 0 }])]
     DataTracker.cleanup_old_data data
        (DataTracker.RetentionConfig.ofDict none (some "parsecs")) 1000000000
      = DataTracker.cleanup_old_data data
        (DataTracker.RetentionConfig.ofDict none (some "days")) 1000000000
     ∧ DataTracker.cleanup_old_data data DataTracker.RetentionConfig.notDict
        1000000000 = data) :=
  cleanup_old_data_malformed_policy _ 1000000000 none "parsecs" (by decide)

/-! ## Compaction idempotence (C7) support -/

/-- Bucket bounds: a record's epoch lies inside its bucket. -/
theorem windowStart_bounds (e I : Int) (hI : 0 < I) :
    PodMetricsManager.windowStart e I ≤ e ∧
      e < PodMetricsManager.windowStart e I + I := by
  unfold PodMetricsManager.windowStart
  have he : e.ediv I = e / I := rfl
  have h1 := Int.ediv_add_emod e I
  have h2 := Int.emod_nonneg e (ne_of_gt hI)
  have h3 := Int.emod_lt_of_pos e hI
  rw [he]
  constructor <;> nlinarith [h1, h2, h3]

/-- The skip condition fails exactly for fully elapsed buckets: the
staleness disjunct `now - window_start ≥ 2·interval` implies
`window_end ≤ now` for a positive interval, so a bucket is emitted iff
its end has passed. -/
theorem emitSkip_false_iff (ws I now : Int) (hI : 0 < I) :
    (¬ PodMetricsManager.emitSkip ws I now = true) ↔ ws + I ≤ now := by
  unfold PodMetricsManager.emitSkip
  simp only [Bool.and_eq_true, decide_eq_true_eq, not_and, not_lt]
  constructor
  · intro h
    by_cases hc : now < ws + I
    · have := h hc
      omega
    · omega
  · intro h hc
    omega

/-- Every element of a weakly sorted integer list is at most its last
element. -/
theorem sorted_le_getLastD (l : List Int) (hs : List.Sorted (· ≤ ·) l) :
    ∀ x ∈ l, ∀ d, x ≤ l.getLastD d := by
  induction l with
  | nil => intro x hx; cases hx
  | cons a t ih =>
      intro x hx d
      rcases List.sorted_cons.mp hs with ⟨ha, hts⟩
      rw [List.getLastD_cons]
      rcases List.mem_cons.mp hx with h | h
      · subst h
        cases t with
        | nil => simp
        | cons b u =>
            exact le_trans (ha b (List.mem_cons_self _ _))
              (ih hts b (List.mem_cons_self _ _) x)
      · exact ih hts x h a

/-- A nonempty list's optional last element is its defaulted last
element. -/
theorem getLastQ_eq_getLastD (l : List α) (d : α) (h : l ≠ []) :
    l.getLast? = some (l.getLastD d) := by
  induction l generalizing d with
  | nil => exact absurd rfl h
  | cons a t ih =>
      cases t with
      | nil => rfl
      | cons b u =>
          rw [List.getLastD_cons, List.getLast?_cons_cons]
          exact ih b (by simp)

/-- Dropping fewer elements than the length keeps the last element. -/
theorem getLastQ_drop (l : List α) (k : Nat) (hk : k < l.length) :
    (l.drop k).getLast? = l.getLast? := by
  induction l generalizing k with
  | nil => simp at hk
  | cons a t ih =>
      cases k with
      | zero => rfl
      | succ k2 =>
          have hk2 : k2 < t.length := by simpa using hk
          have ht : t ≠ [] := by
            intro hh
            rw [hh] at hk2
            simp at hk2
          rw [List.drop_succ_cons, ih k2 hk2]
          cases t with
          | nil => exact absurd rfl ht
          | cons b u => rw [List.getLast?_cons_cons]

/-- The rolling cap keeps a suffix: membership is preserved into the
original list. -/
theorem mem_rolling_window (l : List PodMetricsManager.RollupWindow)
    (i : Int) (w : PodMetricsManager.RollupWindow)
    (hw : w ∈ PodMetricsManager._apply_rolling_window l i) : w ∈ l := by
  unfold PodMetricsManager._apply_rolling_window at hw
  by_cases h30 : i = 30
  · simp only [h30, if_pos] at hw
    by_cases hlen : 48 * 7 < l.length
    · rw [if_pos hlen] at hw
      exact List.drop_subset _ _ hw
    · rw [if_neg hlen] at hw
      exact hw
  · by_cases h60 : i = 60
    · rw [h60] at hw
      norm_num at hw
      by_cases hlen : 24 * 7 < l.length
      · rw [if_pos hlen] at hw
        exact List.drop_subset _ _ hw
      · rw [if_neg hlen] at hw
        exact hw
    · simpa [h30, h60] using hw

/-- The rolling cap keeps the last element of a nonempty store. -/
theorem getLastQ_rolling_window (l : List PodMetricsManager.RollupWindow)
    (i : Int) (h : l ≠ []) :
    (PodMetricsManager._apply_rolling_window l i).getLast? = l.getLast? := by
  unfold PodMetricsManager._apply_rolling_window
  have hlen0 : 0 < l.length := List.length_pos.mpr h
  by_cases h30 : i = 30
  · simp only [h30, if_pos]
    by_cases hlen : 48 * 7 < l.length
    · rw [if_pos hlen]
      exact getLastQ_drop l _ (by omega)
    · rw [if_neg hlen]
  · by_cases h60 : i = 60
    · rw [h60]
      norm_num
      by_cases hlen : 24 * 7 < l.length
      · rw [if_pos hlen]
        exact getLastQ_drop l _ (by omega)
      · rw [if_neg hlen]
    · simp [h30, h60]

/-- The bucket keys of a compaction run are exactly the buckets of the
records to process. -/
theorem mem_windowKeys (mtp : List Metric) (I ws : Int) :
    ws ∈ PodMetricsManager.windowKeys mtp I ↔
      ∃ m ∈ mtp, PodMetricsManager.windowStart
        (AutoStopTracker.metricEpoch m) I = ws := by
  unfold PodMetricsManager.windowKeys
  rw [(List.perm_insertionSort _ _).mem_iff, List.mem_dedup, List.mem_map]

/-- The bucket keys are listed in ascending order. -/
theorem windowKeys_sorted (mtp : List Metric) (I : Int) :
    List.Sorted (fun a b => a ≤ b) (PodMetricsManager.windowKeys mtp I) :=
  List.sorted_insertionSort _ _

/-- The defaulted last element of a nonempty list is a member. -/
theorem getLastD_mem (l : List α) (d : α) (h : l ≠ []) : l.getLastD d ∈ l := by
  induction l generalizing d with
  | nil => exact absurd rfl h
  | cons a t ih =>
      rw [List.getLastD_cons]
      cases t with
      | nil => simp
      | cons b u => exact List.mem_cons_of_mem _ (ih b (by simp))

/-- Every window the emission loop produces is fully elapsed: its end is
at or before `now`. -/
theorem emitted_end_le (pod_id : String) (i : Int) (mtp : List Metric)
    (now : Int) (hI : 0 < i * 60) (w : PodMetricsManager.RollupWindow)
    (hw : w ∈ PodMetricsManager.emittedWindows pod_id i mtp now) :
    w.window_end_epoch ≤ now := by
  unfold PodMetricsManager.emittedWindows at hw
  rcases List.mem_map.mp hw with ⟨ws, hws, hmk⟩
  have hskipb := List.of_mem_filter hws
  have hskip : ¬ PodMetricsManager.emitSkip ws (i * 60) now = true :=
    of_decide_eq_true hskipb
  have hwend : ws + i * 60 ≤ now := (emitSkip_false_iff ws (i * 60) now hI).mp hskip
  rw [← hmk]
  simpa [PodMetricsManager.mkWindow] using hwend

/-- After a run that emitted windows, the end of the last compacted
window bounds, from above, the end of every emitted bucket, and some
processed record lies strictly below it. -/
theorem emitted_last_bound (pod_id : String) (interval_minutes : Int)
    (mtp : List Metric) (now : Int)
    (compacted : List PodMetricsManager.RollupWindow)
    (hI : 0 < interval_minutes * 60)
    (hne : PodMetricsManager.emittedWindows pod_id interval_minutes mtp now ≠ []) :
    ∃ L : Int,
      PodMetricsManager.lastProcessedEpoch
        (PodMetricsManager._apply_rolling_window
          (compacted ++
            PodMetricsManager.emittedWindows pod_id interval_minutes mtp now)
          interval_minutes) = L
      ∧ (∃ m ∈ mtp, AutoStopTracker.metricEpoch m < L)
      ∧ (∀ ws : Int,
          (∃ m ∈ mtp, PodMetricsManager.windowStart
            (AutoStopTracker.metricEpoch m) (interval_minutes * 60) = ws) →
          ¬ PodMetricsManager.emitSkip ws (interval_minutes * 60) now = true →
          ws + interval_minutes * 60 ≤ L) := by
  have hKF : (PodMetricsManager.windowKeys mtp (interval_minutes * 60)).filter
      (fun ws => ¬ PodMetricsManager.emitSkip ws (interval_minutes * 60) now
        = true) ≠ [] := by
    intro hh
    apply hne
    unfold PodMetricsManager.emittedWindows
    rw [hh]
    rfl
  refine ⟨((PodMetricsManager.windowKeys mtp (interval_minutes * 60)).filter
      (fun ws => ¬ PodMetricsManager.emitSkip ws (interval_minutes * 60) now
        = true)).getLastD 0 + interval_minutes * 60, ?_, ?_, ?_⟩
  · have happne : compacted ++
        PodMetricsManager.emittedWindows pod_id interval_minutes mtp now ≠ [] := by
      simp [hne]
    have hkfl := getLastQ_eq_getLastD
      ((PodMetricsManager.windowKeys mtp (interval_minutes * 60)).filter
        (fun ws => ¬ PodMetricsManager.emitSkip ws (interval_minutes * 60) now
          = true)) 0 hKF
    have hE1last : (PodMetricsManager.emittedWindows pod_id interval_minutes
        mtp now).getLast?
        = some (PodMetricsManager.mkWindow pod_id interval_minutes
            (((PodMetricsManager.windowKeys mtp (interval_minutes * 60)).filter
              (fun ws => ¬ PodMetricsManager.emitSkip ws (interval_minutes * 60)
                now = true)).getLastD 0)
            (mtp.filter (fun m => PodMetricsManager.windowStart
              (AutoStopTracker.metricEpoch m) (interval_minutes * 60)
              = ((PodMetricsManager.windowKeys mtp
                  (interval_minutes * 60)).filter
                (fun ws => ¬ PodMetricsManager.emitSkip ws
                  (interval_minutes * 60) now = true)).getLastD 0))) := by
      unfold PodMetricsManager.emittedWindows
      rw [List.getLast?_map, hkfl]
      rfl
    unfold PodMetricsManager.lastProcessedEpoch
    rw [getLastQ_rolling_window _ _ happne, List.getLast?_append, hE1last]
    simp [Option.or, PodMetricsManager.mkWindow]
  · have hwsLmem := getLastD_mem _ (0 : Int) hKF
    have hwsLkeys := List.mem_of_mem_filter hwsLmem
    obtain ⟨mL, hmLmem, hmLws⟩ :=
      (mem_windowKeys mtp (interval_minutes * 60) _).mp hwsLkeys
    refine ⟨mL, hmLmem, ?_⟩
    have hb := windowStart_bounds (AutoStopTracker.metricEpoch mL)
      (interval_minutes * 60) hI
    rw [hmLws] at hb
    omega
  · intro ws hwit hskip
    obtain ⟨m, hm, hmws⟩ := hwit
    have hwskeys : ws ∈ PodMetricsManager.windowKeys mtp (interval_minutes * 60) :=
      (mem_windowKeys mtp (interval_minutes * 60) ws).mpr ⟨m, hm, hmws⟩
    have hwsF : ws ∈ (PodMetricsManager.windowKeys mtp
        (interval_minutes * 60)).filter
        (fun ws => ¬ PodMetricsManager.emitSkip ws (interval_minutes * 60) now
          = true) :=
      List.mem_filter.mpr ⟨hwskeys, decide_eq_true hskip⟩
    have hsorted : List.Sorted (fun a b => a ≤ b)
        ((PodMetricsManager.windowKeys mtp (interval_minutes * 60)).filter
          (fun ws => ¬ PodMetricsManager.emitSkip ws (interval_minutes * 60) now
            = true)) :=
      List.Pairwise.sublist (List.filter_sublist _)
        (windowKeys_sorted mtp (interval_minutes * 60))
    have := sorted_le_getLastD _ hsorted ws hwsF 0
    omega

/-- C7: compaction is idempotent — rerunning `compact_metrics` on the
same raw data immediately produces zero additional windows and leaves
the compacted store unchanged; moreover every window the first run adds
to the store is fully elapsed (`window_end ≤ now`), so an in-progress
window is never emitted. -/
theorem compact_metrics_idempotent (raw : List Metric)
    (compacted : List PodMetricsManager.RollupWindow) (pod_id : String)
    (now interval_minutes : Int) :
    (PodMetricsManager.compact_metrics raw
        (PodMetricsManager.compact_metrics raw compacted pod_id now
          interval_minutes).1 pod_id now interval_minutes).2.1 = 0
    ∧ (PodMetricsManager.compact_metrics raw
        (PodMetricsManager.compact_metrics raw compacted pod_id now
          interval_minutes).1 pod_id now interval_minutes).1
      = (PodMetricsManager.compact_metrics raw compacted pod_id now
          interval_minutes).1
    ∧ ∀ w ∈ (PodMetricsManager.compact_metrics raw compacted pod_id now
        interval_minutes).1, w ∈ compacted ∨ w.window_end_epoch ≤ now := by
  by_cases hval : interval_minutes = 30 ∨ interval_minutes = 60
  · have hnn : ¬ ¬ (interval_minutes = 30 ∨ interval_minutes = 60) :=
      not_not_intro hval
    have hI : 0 < interval_minutes * 60 := by
      rcases hval with h | h <;> rw [h] <;> norm_num
    by_cases hraw : raw.isEmpty = true
    · have hr1 : PodMetricsManager.compact_metrics raw compacted pod_id now
          interval_minutes = (compacted, 0, 0) := by
        unfold PodMetricsManager.compact_metrics
        rw [if_neg hnn, if_pos hraw]
      have h1 : (PodMetricsManager.compact_metrics raw compacted pod_id now
          interval_minutes).1 = compacted := by rw [hr1]
      have h2 : PodMetricsManager.compact_metrics raw
          (PodMetricsManager.compact_metrics raw compacted pod_id now
            interval_minutes).1 pod_id now interval_minutes
          = (compacted, 0, 0) := by
        rw [h1]
        exact hr1
      refine ⟨by rw [h2], by rw [h2, h1], ?_⟩
      intro w hw
      rw [h1] at hw
      exact Or.inl hw
    · by_cases hmtp : (PodMetricsManager.metricsToProcess raw
          compacted).isEmpty = true
      · have hr1 : PodMetricsManager.compact_metrics raw compacted pod_id now
            interval_minutes = (compacted, 0, 0) := by
          unfold PodMetricsManager.compact_metrics
          rw [if_neg hnn, if_neg hraw, if_pos hmtp]
        have h1 : (PodMetricsManager.compact_metrics raw compacted pod_id now
            interval_minutes).1 = compacted := by rw [hr1]
        have h2 : PodMetricsManager.compact_metrics raw
            (PodMetricsManager.compact_metrics raw compacted pod_id now
              interval_minutes).1 pod_id now interval_minutes
            = (compacted, 0, 0) := by
          rw [h1]
          exact hr1
        refine ⟨by rw [h2], by rw [h2, h1], ?_⟩
        intro w hw
        rw [h1] at hw
        exact Or.inl hw
      · by_cases hemit : (PodMetricsManager.emittedWindows pod_id
            interval_minutes (PodMetricsManager.metricsToProcess raw compacted)
            now).length = 0
        · have hr1 : PodMetricsManager.compact_metrics raw compacted pod_id
              now interval_minutes = (compacted, 0,
                (PodMetricsManager.metricsToProcess raw compacted).length) := by
            unfold PodMetricsManager.compact_metrics
            rw [if_neg hnn, if_neg hraw, if_neg hmtp, if_pos hemit, hemit]
          have h1 : (PodMetricsManager.compact_metrics raw compacted pod_id now
              interval_minutes).1 = compacted := by rw [hr1]
          have h2 : PodMetricsManager.compact_metrics raw
              (PodMetricsManager.compact_metrics raw compacted pod_id now
                interval_minutes).1 pod_id now interval_minutes
              = (compacted, 0,
                (PodMetricsManager.metricsToProcess raw compacted).length) := by
            rw [h1]
            exact hr1
          refine ⟨by rw [h2], by rw [h2, h1], ?_⟩
          intro w hw
          rw [h1] at hw
          exact Or.inl hw
        · have hr1 : PodMetricsManager.compact_metrics raw compacted pod_id
              now interval_minutes
              = (PodMetricsManager._apply_rolling_window
                  (compacted ++ PodMetricsManager.emittedWindows pod_id
                    interval_minutes
                    (PodMetricsManager.metricsToProcess raw compacted) now)
                  interval_minutes,
                 (PodMetricsManager.emittedWindows pod_id interval_minutes
                   (PodMetricsManager.metricsToProcess raw compacted)
                   now).length,
                 (PodMetricsManager.metricsToProcess raw compacted).length) := by
            unfold PodMetricsManager.compact_metrics
            rw [if_neg hnn, if_neg hraw, if_neg hmtp, if_neg hemit]
          have hne : PodMetricsManager.emittedWindows pod_id interval_minutes
              (PodMetricsManager.metricsToProcess raw compacted) now ≠ [] := by
            intro hh
            exact hemit (by rw [hh]; rfl)
          obtain ⟨L, hL1, ⟨mw, hmw, hmwlt⟩, hL3⟩ :=
            emitted_last_bound pod_id interval_minutes
              (PodMetricsManager.metricsToProcess raw compacted) now compacted
              hI hne
          have hmwraw : mw ∈ raw.filter (fun m =>
              PodMetricsManager.lastProcessedEpoch compacted
                < AutoStopTracker.metricEpoch m) := hmw
          have hmwb := List.of_mem_filter hmwraw
          have hmw0 : PodMetricsManager.lastProcessedEpoch compacted
              < AutoStopTracker.metricEpoch mw := of_decide_eq_true hmwb
          have hlast0L : PodMetricsManager.lastProcessedEpoch compacted < L := by
            omega
          have h1 : (PodMetricsManager.compact_metrics raw compacted pod_id now
              interval_minutes).1
              = PodMetricsManager._apply_rolling_window
                  (compacted ++ PodMetricsManager.emittedWindows pod_id
                    interval_minutes
                    (PodMetricsManager.metricsToProcess raw compacted) now)
                  interval_minutes := by rw [hr1]
          have hallskip : ∀ ws ∈ PodMetricsManager.windowKeys
              (PodMetricsManager.metricsToProcess raw
                (PodMetricsManager._apply_rolling_window
                  (compacted ++ PodMetricsManager.emittedWindows pod_id
                    interval_minutes
                    (PodMetricsManager.metricsToProcess raw compacted) now)
                  interval_minutes)) (interval_minutes * 60),
              PodMetricsManager.emitSkip ws (interval_minutes * 60) now
                = true := by
            intro ws hws
            obtain ⟨m, hm, hmws⟩ := (mem_windowKeys _ _ _).mp hws
            have hmraw : m ∈ raw.filter (fun mm =>
                PodMetricsManager.lastProcessedEpoch
                  (PodMetricsManager._apply_rolling_window
                    (compacted ++ PodMetricsManager.emittedWindows pod_id
                      interval_minutes
                      (PodMetricsManager.metricsToProcess raw compacted) now)
                    interval_minutes) < AutoStopTracker.metricEpoch mm) := hm
            have hmfacts := List.mem_filter.mp hmraw
            have hmgtL : L < AutoStopTracker.metricEpoch m := by
              have := of_decide_eq_true hmfacts.2
              rw [hL1] at this
              exact this
            by_contra hskip
            have hm1 : m ∈ PodMetricsManager.metricsToProcess raw compacted := by
              show m ∈ raw.filter (fun mm =>
                PodMetricsManager.lastProcessedEpoch compacted
                  < AutoStopTracker.metricEpoch mm)
              exact List.mem_filter.mpr ⟨hmfacts.1, decide_eq_true (by omega)⟩
            have hwsL : ws + interval_minutes * 60 ≤ L :=
              hL3 ws ⟨m, hm1, hmws⟩ hskip
            have hb := windowStart_bounds (AutoStopTracker.metricEpoch m)
              (interval_minutes * 60) hI
            rw [hmws] at hb
            omega
          have hkf2 : (PodMetricsManager.windowKeys
              (PodMetricsManager.metricsToProcess raw
                (PodMetricsManager._apply_rolling_window
                  (compacted ++ PodMetricsManager.emittedWindows pod_id
                    interval_minutes
                    (PodMetricsManager.metricsToProcess raw compacted) now)
                  interval_minutes)) (interval_minutes * 60)).filter
              (fun ws => ¬ PodMetricsManager.emitSkip ws
                (interval_minutes * 60) now = true) = [] := by
            rw [List.filter_eq_nil_iff]
            intro ws hws
            simp [hallskip ws hws]
          have hlen2 : (PodMetricsManager.emittedWindows pod_id
              interval_minutes
              (PodMetricsManager.metricsToProcess raw
                (PodMetricsManager._apply_rolling_window
                  (compacted ++ PodMetricsManager.emittedWindows pod_id
                    interval_minutes
                    (PodMetricsManager.metricsToProcess raw compacted) now)
                  interval_minutes)) now).length
              = ((PodMetricsManager.windowKeys
                  (PodMetricsManager.metricsToProcess raw
                    (PodMetricsManager._apply_rolling_window
                      (compacted ++ PodMetricsManager.emittedWindows pod_id
                        interval_minutes
                        (PodMetricsManager.metricsToProcess raw compacted) now)
                      interval_minutes)) (interval_minutes * 60)).filter
                  (fun ws => ¬ PodMetricsManager.emitSkip ws
                    (interval_minutes * 60) now = true)).length :=
            List.length_map _ _
          have hthird : ∀ w ∈ (PodMetricsManager.compact_metrics raw compacted
              pod_id now interval_minutes).1,
              w ∈ compacted ∨ w.window_end_epoch ≤ now := by
            intro w hw
            rw [h1] at hw
            rcases List.mem_append.mp (mem_rolling_window _ _ _ hw) with h | h
            · exact Or.inl h
            · exact Or.inr (emitted_end_le pod_id interval_minutes _ now hI w h)
          by_cases hmtp2 : (PodMetricsManager.metricsToProcess raw
              (PodMetricsManager._apply_rolling_window
                (compacted ++ PodMetricsManager.emittedWindows pod_id
                  interval_minutes
                  (PodMetricsManager.metricsToProcess raw compacted) now)
                interval_minutes)).isEmpty = true
          · have hr2 : PodMetricsManager.compact_metrics raw
                (PodMetricsManager._apply_rolling_window
                  (compacted ++ PodMetricsManager.emittedWindows pod_id
                    interval_minutes
                    (PodMetricsManager.metricsToProcess raw compacted) now)
                  interval_minutes) pod_id now interval_minutes
                = (PodMetricsManager._apply_rolling_window
                    (compacted ++ PodMetricsManager.emittedWindows pod_id
                      interval_minutes
                      (PodMetricsManager.metricsToProcess raw compacted) now)
                    interval_minutes, 0, 0) := by
              unfold PodMetricsManager.compact_metrics
              rw [if_neg hnn, if_neg hraw, if_pos hmtp2]
            refine ⟨?_, ?_, hthird⟩
            · rw [h1, hr2]
            · rw [h1, hr2]
          · have hzero : (PodMetricsManager.emittedWindows pod_id
                interval_minutes
                (PodMetricsManager.metricsToProcess raw
                  (PodMetricsManager._apply_rolling_window
                    (compacted ++ PodMetricsManager.emittedWindows pod_id
                      interval_minutes
                      (PodMetricsManager.metricsToProcess raw compacted) now)
                    interval_minutes)) now).length = 0 := by
              rw [hlen2, hkf2]
              rfl
            have hr2 : PodMetricsManager.compact_metrics raw
                (PodMetricsManager._apply_rolling_window
                  (compacted ++ PodMetricsManager.emittedWindows pod_id
                    interval_minutes
                    (PodMetricsManager.metricsToProcess raw compacted) now)
                  interval_minutes) pod_id now interval_minutes
                = (PodMetricsManager._apply_rolling_window
                    (compacted ++ PodMetricsManager.emittedWindows pod_id
                      interval_minutes
                      (PodMetricsManager.metricsToProcess raw compacted) now)
                    interval_minutes, 0,
                   (PodMetricsManager.metricsToProcess raw
                     (PodMetricsManager._apply_rolling_window
                       (compacted ++ PodMetricsManager.emittedWindows pod_id
                         interval_minutes
                         (PodMetricsManager.metricsToProcess raw compacted)
                         now) interval_minutes)).length) := by
              unfold PodMetricsManager.compact_metrics
              rw [if_neg hnn, if_neg hraw, if_neg hmtp2, if_pos hzero, hzero]
            refine ⟨?_, ?_, hthird⟩
            · rw [h1, hr2]
            · rw [h1, hr2]
  · have hr : ∀ c : List PodMetricsManager.RollupWindow,
        PodMetricsManager.compact_metrics raw c pod_id now interval_minutes
          = (c, 0, 0) := by
      intro c
      unfold PodMetricsManager.compact_metrics
      rw [if_pos hval]
    have h1 : (PodMetricsManager.compact_metrics raw compacted pod_id now
        interval_minutes).1 = compacted := by rw [hr compacted]
    have h2 : PodMetricsManager.compact_metrics raw
        (PodMetricsManager.compact_metrics raw compacted pod_id now
          interval_minutes).1 pod_id now interval_minutes
        = (compacted, 0, 0) := by
      rw [h1]
      exact hr compacted
    refine ⟨by rw [h2], by rw [h2, h1], ?_⟩
    intro w hw
    rw [h1] at hw
    exact Or.inl hw
